import Mathlib

/-!
Verification of the Request Execution & Persistence Engine of the
API-Tester repository (files `config.py`, `storage.py`, `tools.py`).

The Python code is shallowly embedded: Python dicts become insertion-ordered
association lists, Python `None`-able values become `Option`, machine
integers are `Nat`/`Int` (no overflow is possible in the modelled code),
and the single outbound HTTP call of `send_request_tool` is abstracted as a
`NetResult` oracle argument (the network itself is outside the program).
File persistence (`SAVE_REQUESTS_TO_FILE`) is disabled by default in
`config.py` and is a best-effort side effect; it is not modelled.
Wall-clock time measurement is modelled by the oracle-provided
`elapsedMs`; floating point rounding of `round(x, 1)` is abstracted by
carrying the exact rational value.
-/

namespace ApiTester

/-! ### Python string primitives

`strContains hay pat` models Python `pat in hay` on strings,
`pyStrip` models `str.strip()`, `charListLt` models Python string `<`
(lexicographic on code points).  `pyTruthyStr` models `bool(x)` for an
optional string value (`None` and the empty string are falsy). -/

def charsPrefixOf : List Char → List Char → Bool
  | [], _ => true
  | _ :: _, [] => false
  | a :: as, b :: bs => a == b && charsPrefixOf as bs

def listIsInfix (pat : List Char) : List Char → Bool
  | [] => pat.isEmpty
  | c :: rest => charsPrefixOf pat (c :: rest) || listIsInfix pat rest

def strContains (hay pat : String) : Bool :=
  listIsInfix pat.toList hay.toList

def pyIsSpace (c : Char) : Bool :=
  c == ' ' || c == '\t' || c == '\n' || c == '\r' ||
  c == '\x0b' || c == '\x0c'

def pyStrip (s : String) : String :=
  String.mk
    (((s.toList.dropWhile pyIsSpace).reverse.dropWhile pyIsSpace).reverse)

/-- `str.lower()` (ASCII case mapping, as the modelled values use). -/
def strLower (s : String) : String :=
  String.mk (s.toList.map Char.toLower)

/-- `str.upper()` (ASCII case mapping, as the modelled values use). -/
def strUpper (s : String) : String :=
  String.mk (s.toList.map Char.toUpper)

def charListLt : List Char → List Char → Bool
  | [], [] => false
  | [], _ :: _ => true
  | _ :: _, [] => false
  | a :: as, b :: bs =>
      if a < b then true else if b < a then false else charListLt as bs

def strLtB (a b : String) : Bool := charListLt a.toList b.toList

def pyTruthyStr : Option String → Bool
  | none => false
  | some s => !s.isEmpty

/-! ### urlparse (scheme and netloc only)

Models `urllib.parse.urlparse` from the Python standard library: the
scheme is the part before the first `:` when it is a non-empty run of
scheme characters starting with a letter (lower-cased by the parser);
the netloc is present only when what follows the scheme starts with
`//`, and runs until the next `/`, `?` or `#`.  CPython's `urlsplit`
additionally raises `ValueError("Invalid IPv6 URL")` when the netloc
contains a `[` without a `]` or a `]` without a `[`; `urlparseE` models
the parse as an `Except` with that error case.  (The extra validation of
bracket-matched hosts added in CPython 3.11, `_check_bracketed_host`, is
not modelled: as in Python 3.10 and earlier, a netloc with both brackets
is returned as-is.) -/

def isSchemeChar (c : Char) : Bool :=
  c.isAlpha || c.isDigit || c == '+' || c == '-' || c == '.'

def splitAtColon : List Char → Option (List Char × List Char)
  | [] => none
  | c :: rest =>
      if c == ':' then some ([], rest)
      else
        match splitAtColon rest with
        | some (pre, tail) => some (c :: pre, tail)
        | none => none

def urlSchemeSplit (url : String) : String × String :=
  match splitAtColon url.toList with
  | some (pre, tail) =>
      if pre ≠ [] ∧ (pre.headD 'a').isAlpha ∧ pre.all isSchemeChar then
        (strLower (String.mk pre), String.mk tail)
      else ("", url)
  | none => ("", url)

def takeUntilDelim : List Char → List Char
  | [] => []
  | c :: rest =>
      if c == '/' || c == '?' || c == '#' then []
      else c :: takeUntilDelim rest

def urlScheme (url : String) : String := (urlSchemeSplit url).1

/-- The raw netloc substring of a URL: the characters between `//` and
the next `/`, `?` or `#` (empty when the remainder after the scheme does
not start with `//`).  This is the substring on which `urlsplit` then
performs its bracket check; `urlparseE` builds on it. -/
def urlNetlocRaw (url : String) : String :=
  match (urlSchemeSplit url).2.toList with
  | '/' :: '/' :: t => String.mk (takeUntilDelim t)
  | _ => ""

def charsHas (c : Char) : List Char → Bool
  | [] => false
  | a :: as => a == c || charsHas c as

/-- The unmatched-bracket test of CPython's `urlsplit`:
`'[' in netloc and ']' not in netloc or ']' in netloc and '[' not in
netloc`. -/
def invalidIpv6 (netloc : String) : Bool :=
  (charsHas '[' netloc.toList && !(charsHas ']' netloc.toList)) ||
  (charsHas ']' netloc.toList && !(charsHas '[' netloc.toList))

/-- `urllib.parse.urlparse(url)` restricted to the scheme and netloc
components: raises (returns `Except.error`) exactly when the netloc has
an unmatched bracket, as `urlsplit` does. -/
def urlparseE (url : String) : Except String (String × String) :=
  if invalidIpv6 (urlNetlocRaw url) then
    Except.error "ValueError: Invalid IPv6 URL"
  else Except.ok (urlScheme url, urlNetlocRaw url)

/-! ### Python dicts as insertion-ordered association lists

`dictGet` models `d.get(k)` / `d[k]`, `dictSet` models `d[k] = v`
(overwriting keeps the key's original position, a new key is appended),
`dictUpdateAll` models `d.update(other)` (iterating `other` in insertion
order). -/

def dictGet {α : Type} (d : List (String × α)) (k : String) : Option α :=
  match d with
  | [] => none
  | (k₁, v₁) :: rest => if k₁ = k then some v₁ else dictGet rest k

def dictSet {α : Type} (d : List (String × α)) (k : String) (v : α) :
    List (String × α) :=
  match d with
  | [] => [(k, v)]
  | (k₁, v₁) :: rest =>
      if k₁ = k then (k, v) :: rest else (k₁, v₁) :: dictSet rest k v

def dictUpdateAll {α : Type} :
    List (String × α) → List (String × α) → List (String × α)
  | d, [] => d
  | d, (k, v) :: rest => dictUpdateAll (dictSet d k v) rest

/-! ### Stable descending sort

`sortByDesc gt l` models Python `sorted(l, key=..., reverse=True)`:
a stable sort in descending key order (`gt a b` holds when the key of `a`
is strictly greater than the key of `b`; elements with equal keys keep
their original relative order). -/

def insertByDesc {α : Type} (gt : α → α → Bool) (x : α) : List α → List α
  | [] => [x]
  | y :: ys => if gt y x then y :: insertByDesc gt x ys else x :: y :: ys

def sortByDesc {α : Type} (gt : α → α → Bool) (l : List α) : List α :=
  l.foldr (insertByDesc gt) []

/-! ### Data model (`config.py`, `storage.py`, `tools.py`) -/

/-- `Config` carries the typed configuration values consumed by the engine
(`config.py`): the env-derived timeout, history bound, domain lists and
response-size limit.  Defaults are the defaults of `config.py`. -/
structure Config where
  DEFAULT_TIMEOUT : Nat := 30
  MAX_HISTORY : Nat := 50
  ALLOWED_DOMAINS : List String := []
  BLOCKED_DOMAINS : List String := []
  MAX_RESPONSE_SIZE : Nat := 10485760
deriving DecidableEq

def SERVER_NAME : String := "api-tester"

def SERVER_VERSION : String := "1.0.0"

/-- `Config.DEFAULT_HEADERS` of `config.py`. -/
def DEFAULT_HEADERS : List (String × String) :=
  [("User-Agent", SERVER_NAME ++ "/" ++ SERVER_VERSION),
   ("Accept", "application/json, text/plain, */*")]

/-- The `request_data` dict built in `send_request_tool` (`tools.py`):
`body` is present only when the caller-supplied body is truthy. -/
structure ReqData where
  method : String
  url : String
  headers : List (String × String) := []
  params : List (String × String) := []
  body : Option String := none
  timeout : Nat := 30
deriving DecidableEq

/-- A response dict (`format_response` output, or the `error_response`
literal of `send_request_tool`).  Fields with value `none` model keys
that are absent or bound to Python `None`. -/
structure RespData where
  status_code : Option Int := none
  status_text : Option String := none
  headers : List (String × String) := []
  content : Option String := none
  size : Option Nat := none
  time_ms : Option Nat := none
  error : Option String := none
deriving DecidableEq

/-- Output of `SimpleStorage._clean_request_data`. -/
structure CleanReq where
  method : String
  url : String
  headers : List (String × String)
  params : List (String × String)
  has_body : Bool
  timeout : Nat
deriving DecidableEq

/-- Output of `SimpleStorage._clean_response_data`.  `status_code = none`
models the Python value `None` stored under the `status_code` key (as the
failure path of `send_request_tool` writes). -/
structure CleanResp where
  status_code : Option Int
  status_text : Option String
  size : Option Nat
  time_ms : Option Nat
  content_type : Option String
  error : Option String
deriving DecidableEq

/-- A history log entry as built by `SimpleStorage.add_to_history`. -/
structure HistoryEntry where
  id : Nat
  timestamp : String
  request : CleanReq
  response : CleanResp
deriving DecidableEq

/-- A saved template as built by `SimpleStorage.save_request` from the
`request_config` dict of `save_request_tool`. -/
structure SavedReq where
  method : String
  url : String
  headers : List (String × String)
  body : Option String
  params : List (String × String)
  description : String
  saved_at : String
  id : String
deriving DecidableEq

/-- In-memory state of `SimpleStorage`: the template store dict and the
history list (most recent first). -/
structure Storage where
  saved_requests : List (String × SavedReq)
  history : List HistoryEntry
deriving DecidableEq

def emptyStorage : Storage := { saved_requests := [], history := [] }

/-! ### storage.py -/

/-- `SimpleStorage._clean_request_data`:  `has_body` is
`bool(request_data.get('body'))`. -/
def clean_request_data (r : ReqData) : CleanReq :=
  { method := r.method, url := r.url, headers := r.headers,
    params := r.params, has_body := pyTruthyStr r.body,
    timeout := r.timeout }

/-- `SimpleStorage._clean_response_data`: projects the stored fields and
reads `content-type` from the response headers dict. -/
def clean_response_data (r : RespData) : CleanResp :=
  { status_code := r.status_code, status_text := r.status_text,
    size := r.size, time_ms := r.time_ms,
    content_type := dictGet r.headers "content-type",
    error := r.error }

/-- The entry literal built at the top of `SimpleStorage.add_to_history`:
`id` is `len(self.history) + 1`. -/
def newHistoryEntry (st : Storage) (req : ReqData) (resp : RespData)
    (now : String) : HistoryEntry :=
  { id := st.history.length + 1, timestamp := now,
    request := clean_request_data req,
    response := clean_response_data resp }

/-- `SimpleStorage.add_to_history`: insert at the front, then truncate to
`max_history` when the bound is exceeded. -/
def add_to_history (max : Nat) (st : Storage) (req : ReqData)
    (resp : RespData) (now : String) : Storage :=
  let entry := newHistoryEntry st req resp now
  let h := entry :: st.history
  { st with history := if max < h.length then h.take max else h }

/-- `SimpleStorage.get_history`: `self.history[:limit]`. -/
def get_history (st : Storage) (limit : Nat) : List HistoryEntry :=
  st.history.take limit

/-- `SimpleStorage.get_history_by_url`: exact case-insensitive URL match,
then `[:limit]`. -/
def get_history_by_url (st : Storage) (url : String) (limit : Nat) :
    List HistoryEntry :=
  (st.history.filter (fun e => strLower e.request.url == strLower url)).take limit

/-- `SimpleStorage.get_history_by_method`: exact case-insensitive method
match, then `[:limit]`. -/
def get_history_by_method (st : Storage) (m : String) (limit : Nat) :
    List HistoryEntry :=
  (st.history.filter
    (fun e => strUpper e.request.method == strUpper m)).take limit

/-- `SimpleStorage.save_request`: stores `request_data` with `saved_at`
and `id = name` added. -/
def save_request (st : Storage) (name : String) (method url : String)
    (headers : List (String × String)) (body : Option String)
    (params : List (String × String)) (description : String)
    (now : String) : Storage :=
  let entry : SavedReq :=
    { method := method, url := url, headers := headers, body := body,
      params := params, description := description, saved_at := now,
      id := name }
  { st with saved_requests := dictSet st.saved_requests name entry }

/-- `SimpleStorage.get_request`. -/
def get_request (st : Storage) (name : String) : Option SavedReq :=
  dictGet st.saved_requests name

/-! ### Statistics (`SimpleStorage.get_stats`)

The counting loop is modelled directly.  For every entry written by
`_clean_response_data` the `status_code` key is present, so
`entry['response'].get('status_code', 0)` yields the stored value; when
that value is Python `None` (as the failure path of `send_request_tool`
stores), evaluating `None < 400` raises `TypeError`, modelled by the
`Except.error` result.  The `round(x, 1)` of the success rate is
abstracted by the exact rational value. -/

structure Stats where
  total_requests : Nat
  saved_requests : Nat
  history_entries : Nat
  success_rate : Rat
  common_methods : List (String × Nat)
  common_domains : List (String × Nat)
deriving DecidableEq

def bumpCount (l : List (String × Nat)) (k : String) : List (String × Nat) :=
  match l with
  | [] => [(k, 1)]
  | (k₁, n) :: rest =>
      if k₁ = k then (k₁, n + 1) :: rest else (k₁, n) :: bumpCount rest k

def countSuccessful : List HistoryEntry → Except String Nat
  | [] => Except.ok 0
  | e :: rest =>
      match e.response.status_code with
      | some n =>
          match countSuccessful rest with
          | Except.ok k => Except.ok ((if n < 400 then 1 else 0) + k)
          | Except.error msg => Except.error msg
      | none =>
          Except.error "TypeError: unorderable types NoneType and int"

def countGt (a b : String × Nat) : Bool := decide (b.2 < a.2)

def get_stats (st : Storage) : Except String Stats :=
  if st.history.isEmpty then
    Except.ok
      { total_requests := 0, saved_requests := st.saved_requests.length,
        history_entries := 0, success_rate := 0,
        common_methods := [], common_domains := [] }
  else
    match countSuccessful st.history with
    | Except.error msg => Except.error msg
    | Except.ok successful =>
        let methods := st.history.foldl
          (fun acc e => bumpCount acc e.request.method) []
        let domains := st.history.foldl
          (fun acc e =>
            match urlparseE e.request.url with
            | Except.error _ => acc
            | Except.ok (_, d) => if d = "" then acc else bumpCount acc d)
          []
        Except.ok
          { total_requests := st.history.length,
            saved_requests := st.saved_requests.length,
            history_entries := st.history.length,
            success_rate :=
              ((successful : Rat) / (st.history.length : Rat)) * 100,
            common_methods := (sortByDesc countGt methods).take 5,
            common_domains := (sortByDesc countGt domains).take 5 }

/-! ### Import (`SimpleStorage.import_data`)

A snapshot's `saved_requests` and `history` keys may each be absent
(`none`).  A history record is either structurally good (`ok`) or
malformed (`bad`): a malformed record makes `entry.get('id')` (or the
later sort key access) raise, which the `except` clause turns into the
`False` return — after the template `update` has already run. -/

inductive HRecord where
  | ok (e : HistoryEntry)
  | bad
deriving DecidableEq

def HRecord.isOk : HRecord → Bool
  | HRecord.ok _ => true
  | HRecord.bad => false

def HRecord.getOk : HRecord → Option HistoryEntry
  | HRecord.ok e => some e
  | HRecord.bad => none

structure Snapshot where
  saved_requests : Option (List (String × SavedReq)) := none
  history : Option (List HRecord) := none
deriving DecidableEq

/-- Sort key comparison of `import_data`: Python
`sorted(..., key=lambda x: x.get('timestamp', ''), reverse=True)`. -/
def tsGt (a b : HistoryEntry) : Bool := strLtB b.timestamp a.timestamp

/-- `SimpleStorage.import_data`.  Returns the Python boolean result and
the resulting state.  Template merging runs first; a malformed history
record aborts with `False` while the template update is already applied
and the history list is left as it was. -/
def import_data (max : Nat) (st : Storage) (d : Snapshot) :
    Bool × Storage :=
  let st₁ :=
    match d.saved_requests with
    | none => st
    | some ts => { st with saved_requests :=
                     dictUpdateAll st.saved_requests ts }
  match d.history with
  | none => (true, st₁)
  | some hs =>
      if hs.all HRecord.isOk then
        let existing := st₁.history.map HistoryEntry.id
        let newEntries :=
          (hs.filterMap HRecord.getOk).filter
            (fun e => !(existing.contains e.id))
        (true,
         { st₁ with history :=
             (sortByDesc tsGt (st₁.history ++ newEntries)).take max })
      else (false, st₁)

/-! ### config.py and tools.py -/

/-- `Config.is_url_allowed`: empty lists allow everything without
parsing; otherwise the URL is parsed (propagating `urlparse`'s
ValueError as `Except.error`) and the block-list is checked first on the
lower-cased netloc (entries stripped, empty entries skipped,
lower-cased, substring match), then the allow-list. -/
def is_url_allowed (allowedDomains blockedDomains : List String)
    (url : String) : Except String Bool :=
  if allowedDomains.isEmpty && blockedDomains.isEmpty then Except.ok true
  else
    match urlparseE url with
    | Except.error e => Except.error e
    | Except.ok (_, netloc) =>
        let domain := strLower netloc
        if !blockedDomains.isEmpty &&
            blockedDomains.any
              (fun b => !(pyStrip b == "") &&
                        strContains domain (strLower (pyStrip b))) then
          Except.ok false
        else if !allowedDomains.isEmpty then
          Except.ok (allowedDomains.any
            (fun a => !(pyStrip a == "") &&
                      strContains domain (strLower (pyStrip a))))
        else Except.ok true

/-- `validate_url` of `tools.py`: inside a `try`, parse the URL and
reject when the scheme or netloc is missing, else defer to
`config.is_url_allowed`; the `except` clause turns any raised
`ValueError` (from either parse) into a `False` return. -/
def validate_url (allowedDomains blockedDomains : List String)
    (url : String) : Bool :=
  match urlparseE url with
  | Except.error _ => false
  | Except.ok (scheme, netloc) =>
      if scheme == "" || netloc == "" then false
      else
        match is_url_allowed allowedDomains blockedDomains url with
        | Except.ok b => b
        | Except.error _ => false

/-- `prepare_headers` of `tools.py`: copy the defaults, then
`dict.update` with the caller's headers (plain, case-sensitive keys). -/
def prepare_headers (headers : List (String × String)) :
    List (String × String) :=
  if headers.isEmpty then DEFAULT_HEADERS
  else dictUpdateAll DEFAULT_HEADERS headers

/-- The domain policy exactly as the claim words it (claim C5), with the
URL's host read as the raw netloc substring (the claim has no notion of
a parse failure): malformed URLs (missing scheme or host) rejected
first; both lists empty allows everything; otherwise a block-list hit
(entries trimmed, empty ignored, case-insensitive substring of the host)
rejects with precedence; otherwise a non-empty allow-list accepts
exactly on a match; otherwise the URL is accepted. -/
def specIsAllowed (allowedDomains blockedDomains : List String)
    (url : String) : Bool :=
  if urlScheme url == "" || urlNetlocRaw url == "" then false
  else if allowedDomains.isEmpty && blockedDomains.isEmpty then true
  else if blockedDomains.any
      (fun b => !(pyStrip b == "") &&
                strContains (strLower (urlNetlocRaw url))
                  (strLower (pyStrip b)))
    then false
  else if !allowedDomains.isEmpty then
    allowedDomains.any
      (fun a => !(pyStrip a == "") &&
                strContains (strLower (urlNetlocRaw url))
                  (strLower (pyStrip a)))
  else true

/-- The domain policy as amended for claim C5: URLs on which the parser
raises (unmatched bracket in the netloc) are rejected by the dispatch
validation's `except` branch; every URL that parses is judged exactly by
the claimed policy. -/
def specIsAllowedAmended (allowedDomains blockedDomains : List String)
    (url : String) : Bool :=
  match urlparseE url with
  | Except.error _ => false
  | Except.ok _ => specIsAllowed allowedDomains blockedDomains url

/-! ### Request dispatch (`send_request_tool` of `tools.py`)

The single `requests.request` call is abstracted by a `NetResult` oracle:
`ok r` models a returned response object (with its declared
`content-length` already as an integer and the measured wall-clock
elapsed milliseconds), `exn msg` models a raised
`requests.exceptions.RequestException` with message `msg`.  Whether a
body string parses as JSON (`json.loads`) is abstracted by the `jsonOk`
oracle. -/

structure NetResp where
  status_code : Int
  reason : String
  headers : List (String × String) := []
  content : String := ""
  contentLength : Option Nat := none
  elapsedMs : Nat := 0
deriving DecidableEq

inductive NetResult where
  | ok (r : NetResp)
  | exn (msg : String)
deriving DecidableEq

inductive SendOutcome where
  | invalidUrl
  | tooLarge (declared : Nat)
  | completed
  | failed (msg : String)
deriving DecidableEq

/-- `format_response` of `tools.py` (the JSON decode of the content only
affects the display structure; the raw text is carried).  The
`time_ms` field is subsequently overwritten by the dispatcher with the
measured elapsed time. -/
def format_response (r : NetResp) : RespData :=
  { status_code := some r.status_code, status_text := some r.reason,
    headers := r.headers, content := some r.content,
    size := some r.content.length, time_ms := some r.elapsedMs,
    error := none }

/-- The header preparation of `send_request_tool`: the prepared headers,
with `Content-Type: application/json` injected when the body is truthy,
parses as JSON and no content-type key (compared case-insensitively) was
supplied. -/
def dispatchHeaders (args : ReqData) (jsonOk : String → Bool) :
    List (String × String) :=
  let headers₀ := prepare_headers args.headers
  if pyTruthyStr args.body && jsonOk (args.body.getD "") &&
      !(headers₀.any (fun kv => strLower kv.1 == "content-type")) then
    dictSet headers₀ "Content-Type" "application/json"
  else headers₀

/-- The `request_data` dict that `send_request_tool` builds and stores
into history (its `headers` alias the mutated headers dict, so the
injected content-type is visible here; the caller-args `timeout` models
`args.get("timeout", config.DEFAULT_TIMEOUT)` already applied). -/
def dispatchRequestData (args : ReqData) (jsonOk : String → Bool) :
    ReqData :=
  { method := strUpper args.method, url := args.url,
    headers := dispatchHeaders args jsonOk, params := args.params,
    body := if pyTruthyStr args.body then args.body else none,
    timeout := args.timeout }

/-- `send_request_tool` of `tools.py`: validate the URL (no network call
and no history entry on rejection), merge headers, optionally inject
`Content-Type`, then dispatch.  An oversized declared content length
abandons the transfer with no history entry; a completed transfer or a
transport failure each append exactly one history entry. -/
def send_request_tool (cfg : Config) (st : Storage) (args : ReqData)
    (net : NetResult) (now : String) (jsonOk : String → Bool) :
    SendOutcome × Storage :=
  if validate_url cfg.ALLOWED_DOMAINS cfg.BLOCKED_DOMAINS args.url = true then
    let request_data := dispatchRequestData args jsonOk
    match net with
    | NetResult.exn msg =>
        (SendOutcome.failed msg,
         add_to_history cfg.MAX_HISTORY st request_data
           { error := some msg } now)
    | NetResult.ok r =>
        match r.contentLength with
        | some n =>
            if cfg.MAX_RESPONSE_SIZE < n then (SendOutcome.tooLarge n, st)
            else
              (SendOutcome.completed,
               add_to_history cfg.MAX_HISTORY st request_data
                 ({ format_response r with time_ms := some r.elapsedMs }) now)
        | none =>
            (SendOutcome.completed,
             add_to_history cfg.MAX_HISTORY st request_data
               ({ format_response r with time_ms := some r.elapsedMs }) now)
  else (SendOutcome.invalidUrl, st)

/-- `save_request_tool` of `tools.py`: a truthy `storage.get_request(name)`
(an existing template record is a non-empty dict) reports the
already-exists condition and performs no mutation; otherwise the
template is stored. -/
def save_request_tool (st : Storage) (name : String)
    (method url : String) (headers : List (String × String))
    (body : Option String) (params : List (String × String))
    (description : String) (now : String) : Bool × Storage :=
  match get_request st name with
  | some _ => (false, st)
  | none =>
      (true, save_request st name method url headers body params
               description now)

/-! ### Iterated appends (for the history-invariant claims) -/

structure AppendInput where
  req : ReqData
  resp : RespData
  now : String
deriving DecidableEq

def runAppends (max : Nat) (inputs : List AppendInput) : Storage :=
  inputs.foldl (fun st i => add_to_history max st i.req i.resp i.now)
    emptyStorage

/-! ### Concrete fixtures used by witnesses and counterexamples -/

def req₀ : ReqData :=
  { method := "GET", url := "https://api.example.com/items", timeout := 30 }

def inp₀ : AppendInput := { req := req₀, resp := {}, now := "t0" }

def tmpl₀ : SavedReq :=
  { method := "GET", url := "https://api.example.com/items", headers := [],
    body := none, params := [], description := "", saved_at := "t0",
    id := "a" }

def hEntry₀ : HistoryEntry :=
  { id := 1, timestamp := "t1",
    request := { method := "GET", url := "https://api.example.com/items",
                 headers := [], params := [], has_body := false,
                 timeout := 30 },
    response := { status_code := some 200, status_text := some "OK",
                  size := some 120, time_ms := some 45,
                  content_type := none, error := none } }

/-- The history entry written by the transport-failure path of
`send_request_tool` for `req₀` with error message "boom". -/
def failEntry₀ : HistoryEntry :=
  { id := 1, timestamp := "t0",
    request := { method := "GET", url := "https://api.example.com/items",
                 headers := DEFAULT_HEADERS, params := [],
                 has_body := false, timeout := 30 },
    response := { status_code := none, status_text := none, size := none,
                  time_ms := none, content_type := none,
                  error := some "boom" } }

/-- A snapshot whose history contains one malformed record. -/
def snap₀ : Snapshot :=
  { saved_requests := some [("a", tmpl₀)],
    history := some [HRecord.bad] }

/-- A well-formed snapshot: one template, one good history record. -/
def snapOk₀ : Snapshot :=
  { saved_requests := some [("a", tmpl₀)],
    history := some [HRecord.ok hEntry₀] }

/-- A snapshot whose only history record duplicates the id of an entry
already in the log. -/
def snapDup₀ : Snapshot :=
  { saved_requests := some [], history := some [HRecord.ok hEntry₀] }

/-- A storage state whose log already holds `hEntry₀`. -/
def stOne : Storage := { saved_requests := [], history := [hEntry₀] }

/-- The default configuration of `config.py` (no env overrides). -/
def cfg₀ : Config := {}

/-- A configuration with a blocked domain. -/
def cfgB : Config := { BLOCKED_DOMAINS := ["evil.com"] }

/-- A request aimed at the blocked domain of `cfgB`. -/
def reqEvil : ReqData :=
  { method := "GET", url := "https://evil.com/x", timeout := 30 }

/-- Decidable equality for `Except` results (used to evaluate the model
on concrete inputs). -/
instance {ε α : Type} [DecidableEq ε] [DecidableEq α] :
    DecidableEq (Except ε α) := fun x y =>
  match x, y with
  | Except.ok a, Except.ok b =>
      if h : a = b then isTrue (by rw [h])
      else isFalse (fun hc => h (Except.ok.inj hc))
  | Except.ok _, Except.error _ => isFalse (fun hc => Except.noConfusion hc)
  | Except.error _, Except.ok _ => isFalse (fun hc => Except.noConfusion hc)
  | Except.error e, Except.error f =>
      if h : e = f then isTrue (by rw [h])
      else isFalse (fun hc => h (Except.error.inj hc))

/-- The id that `add_to_history` assigns at the (j+1)-th append (0-based
`j`) of a run of `n` appends from the empty log, read off position `j`
of the resulting log (front first): `min (n - 1 - j) max + 1`. -/
def histIdAt (n max j : Nat) : Nat := min (n - 1 - j) max + 1

/-! ### Helper lemmas: dicts -/

theorem dictGet_dictSet_self {α : Type} (d : List (String × α))
    (k : String) (v : α) : dictGet (dictSet d k v) k = some v := by
  induction d with
  | nil => simp [dictSet, dictGet]
  | cons p rest ih =>
      obtain ⟨k₁, v₁⟩ := p
      by_cases h : k₁ = k
      · simp [dictSet, h, dictGet]
      · simp [dictSet, h, dictGet, ih]

theorem dictGet_dictSet_ne {α : Type} (d : List (String × α))
    (k k' : String) (v : α) (h : k ≠ k') :
    dictGet (dictSet d k v) k' = dictGet d k' := by
  induction d with
  | nil => simp [dictSet, dictGet, h]
  | cons p rest ih =>
      obtain ⟨k₁, v₁⟩ := p
      by_cases h₁ : k₁ = k
      · subst h₁; simp [dictSet, dictGet, h]
      · simp [dictSet, h₁, dictGet, ih]

theorem dictGet_dictUpdateAll_not_mem {α : Type} (d : List (String × α))
    (upd : List (String × α)) (k : String)
    (h : k ∉ upd.map Prod.fst) :
    dictGet (dictUpdateAll d upd) k = dictGet d k := by
  induction upd generalizing d with
  | nil => rfl
  | cons p rest ih =>
      obtain ⟨k₀, v₀⟩ := p
      simp only [List.map_cons, List.mem_cons, not_or] at h
      show dictGet (dictUpdateAll (dictSet d k₀ v₀) rest) k = dictGet d k
      rw [ih (dictSet d k₀ v₀) h.2,
          dictGet_dictSet_ne d k₀ k v₀ (fun hc => h.1 hc.symm)]

theorem dictGet_dictUpdateAll_mem {α : Type} (d : List (String × α))
    (upd : List (String × α)) (k : String) (v : α)
    (hnd : (upd.map Prod.fst).Nodup) (hmem : (k, v) ∈ upd) :
    dictGet (dictUpdateAll d upd) k = some v := by
  induction upd generalizing d with
  | nil => cases hmem
  | cons p rest ih =>
      obtain ⟨k₀, v₀⟩ := p
      rw [List.map_cons, List.nodup_cons] at hnd
      rcases List.mem_cons.mp hmem with heq | hrest
      · have hk : k = k₀ := congrArg Prod.fst heq
        have hv : v = v₀ := congrArg Prod.snd heq
        subst hk; subst hv
        show dictGet (dictUpdateAll (dictSet d k v) rest) k = some v
        rw [dictGet_dictUpdateAll_not_mem (dictSet d k v) rest k hnd.1,
            dictGet_dictSet_self]
      · exact ih (dictSet d k₀ v₀) hnd.2 hrest

/-! ### Helper lemmas: history append -/

theorem add_to_history_history (max : Nat) (st : Storage) (req : ReqData)
    (resp : RespData) (now : String) :
    (add_to_history max st req resp now).history =
      (newHistoryEntry st req resp now :: st.history).take max := by
  unfold add_to_history
  by_cases h : max < st.history.length + 1
  · simp [h]
  · have hle : (newHistoryEntry st req resp now :: st.history).length ≤ max := by
      simp only [List.length_cons]; omega
    simp [h, List.take_of_length_le hle]

theorem runAppends_append_one (max : Nat) (l : List AppendInput)
    (x : AppendInput) :
    runAppends max (l ++ [x]) =
      add_to_history max (runAppends max l) x.req x.resp x.now := by
  unfold runAppends
  rw [List.foldl_append]
  rfl

theorem runAppends_map_id (max : Nat) (inputs : List AppendInput) :
    (runAppends max inputs).history.map HistoryEntry.id =
      (List.range (min inputs.length max)).map
        (histIdAt inputs.length max) := by
  induction inputs using List.reverseRecOn with
  | nil => simp [runAppends, emptyStorage]
  | append_singleton l x ih =>
      rw [runAppends_append_one, add_to_history_history, List.map_take]
      have hlen : (runAppends max l).history.length = min l.length max := by
        have hc := congrArg List.length ih
        simpa using hc
      rw [List.map_cons, ih]
      have hid : (newHistoryEntry (runAppends max l) x.req x.resp
          x.now).id = min l.length max + 1 := by
        simp [newHistoryEntry, hlen]
      rw [hid]
      have hlapp : (l ++ [x]).length = l.length + 1 := by simp
      rw [hlapp]
      cases max with
      | zero => simp
      | succ m =>
          rw [List.take_succ_cons, ← List.map_take, List.take_range,
              Nat.succ_min_succ, List.range_succ_eq_map, List.map_cons,
              List.map_map]
          congr 1
          have h₂ : min m (min l.length (m + 1)) = min l.length m := by
            omega
          rw [h₂]
          refine List.map_congr_left (fun j hj => ?_)
          simp only [histIdAt, Function.comp_apply]
          omega

theorem runAppends_length (max : Nat) (inputs : List AppendInput) :
    (runAppends max inputs).history.length = min inputs.length max := by
  have hc := congrArg List.length (runAppends_map_id max inputs)
  simpa using hc

theorem runAppends_head_id (max : Nat) (inputs : List AppendInput)
    (h₁ : 0 < max) (h₂ : 0 < inputs.length) :
    (runAppends max inputs).history.head?.map HistoryEntry.id =
      some (min inputs.length (max + 1)) := by
  rw [← List.head?_map, runAppends_map_id]
  obtain ⟨s, hs⟩ : ∃ s, min inputs.length max = s + 1 :=
    ⟨min inputs.length max - 1, by omega⟩
  rw [hs, List.range_succ_eq_map, List.map_cons, List.head?_cons]
  exact congrArg some (by simp only [histIdAt]; omega)

theorem runAppends_id_bound (max : Nat) (inputs : List AppendInput)
    (e : HistoryEntry) (he : e ∈ (runAppends max inputs).history)
    (hover : max < inputs.length) :
    inputs.length - max < e.id ∨ e.id = max + 1 := by
  have hm : e.id ∈ (runAppends max inputs).history.map HistoryEntry.id :=
    List.mem_map_of_mem _ he
  rw [runAppends_map_id] at hm
  obtain ⟨j, hj, hje⟩ := List.mem_map.mp hm
  have hjr := List.mem_range.mp hj
  simp only [histIdAt] at hje
  omega

theorem runAppends_pairwise_id (max : Nat) (inputs : List AppendInput) :
    List.Pairwise (fun a b => b.id ≤ a.id)
      ((runAppends max inputs).history) := by
  have hp : List.Pairwise (fun a b => b ≤ a)
      ((runAppends max inputs).history.map HistoryEntry.id) := by
    rw [runAppends_map_id, List.pairwise_map]
    refine (List.pairwise_lt_range _).imp (fun {i j} hij => ?_)
    simp only [histIdAt]
    omega
  exact List.pairwise_map.mp hp

/-! ### Helper lemmas: sorting and stats -/

theorem insertByDesc_length {α : Type} (gt : α → α → Bool) (x : α)
    (l : List α) : (insertByDesc gt x l).length = l.length + 1 := by
  induction l with
  | nil => rfl
  | cons y ys ih =>
      by_cases h : gt y x <;> simp [insertByDesc, h, ih]

theorem sortByDesc_length {α : Type} (gt : α → α → Bool) (l : List α) :
    (sortByDesc gt l).length = l.length := by
  induction l with
  | nil => rfl
  | cons y ys ih =>
      simp only [sortByDesc, List.foldr_cons, List.length_cons] at *
      rw [insertByDesc_length, ih]

theorem urlparseE_ok (url : String) (p : String × String)
    (h : urlparseE url = Except.ok p) :
    p = (urlScheme url, urlNetlocRaw url) := by
  unfold urlparseE at h
  by_cases hb : invalidIpv6 (urlNetlocRaw url) = true
  · rw [if_pos hb] at h
    cases h
  · rw [if_neg hb] at h
    cases h
    rfl

theorem countSuccessful_error (l : List HistoryEntry) (e : HistoryEntry)
    (he : e ∈ l) (hn : e.response.status_code = none) :
    ∃ msg, countSuccessful l = Except.error msg := by
  induction l with
  | nil => cases he
  | cons a rest ih =>
      rcases List.mem_cons.mp he with h | h
      · subst h
        exact ⟨_, by unfold countSuccessful; rw [hn]⟩
      · obtain ⟨msg, hmsg⟩ := ih h
        cases hsc : a.response.status_code with
        | none => exact ⟨_, by unfold countSuccessful; rw [hsc]⟩
        | some n =>
            exact ⟨msg, by unfold countSuccessful; rw [hsc, hmsg]⟩

/-! ### Claim C1 -/

/-- Claim C1 counterexample: the claim says that after 60 appends with
`MAX_HISTORY = 50` the newest entry's id is 60.  In the code
(`add_to_history`) the id is `len(self.history) + 1`, so once the log is
full every append assigns id 51: the newest entry's id after 60 appends
is 51, not 60. -/
theorem history_id_counter_cex :
    ¬ ((runAppends 50 (List.replicate 60 inp₀)).history.head?.map
        HistoryEntry.id = some 60) := by
  have h := runAppends_head_id 50 (List.replicate 60 inp₀) (by omega)
    (by simp)
  rw [h]
  decide

/-- Claim C1 (amended): the i-th append assigns id
`min i (MAX_HISTORY + 1)` (the current log length plus one), so ids
increase strictly only while the log is below capacity and every append
into a full log reuses id `MAX_HISTORY + 1`; once more appends than
`MAX_HISTORY` have happened, every surviving entry has id above
`appends - MAX_HISTORY` or the repeated id `MAX_HISTORY + 1` (hence after
60 appends with `MAX_HISTORY = 50`, ids 1-10 are absent and the newest
id is 51). -/
theorem history_id_assignment (max : Nat) (inputs : List AppendInput)
    (i : Nat) (hmax : 0 < max) :
    (1 ≤ i → i ≤ inputs.length →
      (runAppends max (inputs.take i)).history.head?.map HistoryEntry.id =
        some (min i (max + 1))) ∧
    (max < inputs.length →
      ∀ e ∈ (runAppends max inputs).history,
        inputs.length - max < e.id ∨ e.id = max + 1) := by
  constructor
  · intro h₁ h₂
    have hlen : (inputs.take i).length = i := by
      rw [List.length_take]; omega
    have hh := runAppends_head_id max (inputs.take i) hmax
      (by rw [hlen]; omega)
    rw [hlen] at hh
    exact hh
  · intro hover e he
    exact runAppends_id_bound max inputs e he hover

/-- Witness for C1 at the claim's own numbers: 60 appends with
`MAX_HISTORY = 50`. -/
theorem history_id_assignment_witness :
    (runAppends 50 ((List.replicate 60 inp₀).take 60)).history.head?.map
        HistoryEntry.id = some (min 60 51) ∧
    ∀ e ∈ (runAppends 50 (List.replicate 60 inp₀)).history,
        60 - 50 < e.id ∨ e.id = 51 := by
  have h := history_id_assignment 50 (List.replicate 60 inp₀) 60 (by omega)
  refine ⟨by simpa using h.1 (by omega) (by simp), fun e he => ?_⟩
  simpa using h.2 (by simp) e he

/-! ### Claim C4 -/

/-- Claim C4 counterexample: the claim says entries are ordered by
strictly decreasing id.  With `MAX_HISTORY = 2`, after four appends the
log's ids are `[3, 3]`: insertion order is preserved, but ids are not
strictly decreasing (the id 3 is assigned to every append into the full
log). -/
theorem history_strict_order_cex :
    (runAppends 2 (List.replicate 4 inp₀)).history.map HistoryEntry.id =
        [3, 3] ∧
    ¬ List.Pairwise (fun a b => b < a)
        ((runAppends 2 (List.replicate 4 inp₀)).history.map
          HistoryEntry.id) := by
  constructor
  · decide
  · decide

/-- Claim C4 (amended): after every sequence of appends from the empty
log the length is `min appends MAX_HISTORY` (so never exceeds the
bound), ids are non-strictly decreasing from front to back, each append
puts the new entry (with id `length + 1`) at the front and drops only the
oldest tail entries (the post-append log is the front-inserted log
truncated to `MAX_HISTORY`); strict id decrease fails once the log is
full. -/
theorem history_bound_and_order (max : Nat) (inputs : List AppendInput)
    (st : Storage) (req : ReqData) (resp : RespData) (now : String) :
    (runAppends max inputs).history.length = min inputs.length max ∧
    List.Pairwise (fun a b => b.id ≤ a.id)
      ((runAppends max inputs).history) ∧
    (add_to_history max st req resp now).history =
      (newHistoryEntry st req resp now :: st.history).take max ∧
    (0 < max →
      (add_to_history max st req resp now).history.head? =
        some (newHistoryEntry st req resp now)) := by
  refine ⟨runAppends_length max inputs, runAppends_pairwise_id max inputs,
    add_to_history_history max st req resp now, fun hmax => ?_⟩
  rw [add_to_history_history]
  obtain ⟨m, rfl⟩ : ∃ m, max = m + 1 := ⟨max - 1, by omega⟩
  rw [List.take_succ_cons]
  rfl

/-- Witness for C4 on a concrete run. -/
theorem history_bound_and_order_witness :
    (runAppends 2 (List.replicate 4 inp₀)).history.length = min 4 2 ∧
    (add_to_history 2 emptyStorage req₀ {} "t0").history.head? =
      some (newHistoryEntry emptyStorage req₀ {} "t0") := by
  have h := history_bound_and_order 2 (List.replicate 4 inp₀) emptyStorage
    req₀ {} "t0"
  exact ⟨by simpa using h.1, h.2.2.2 (by omega)⟩

/-! ### Claim C9 -/

/-- Claim C9: `save_request_tool` on a name that already maps to a
template reports the already-exists condition (`false`) and performs no
mutation: after a first save of "x" and a second save of "x", the store
still maps "x" to the template created from the first call's fields, and
the second call returns the state unchanged. -/
theorem save_request_no_overwrite (st : Storage) (name : String)
    (m₁ u₁ : String) (hs₁ : List (String × String)) (b₁ : Option String)
    (p₁ : List (String × String)) (d₁ t₁ : String)
    (m₂ u₂ : String) (hs₂ : List (String × String)) (b₂ : Option String)
    (p₂ : List (String × String)) (d₂ t₂ : String)
    (habs : get_request st name = none) :
    (save_request_tool st name m₁ u₁ hs₁ b₁ p₁ d₁ t₁).1 = true ∧
    get_request (save_request_tool st name m₁ u₁ hs₁ b₁ p₁ d₁ t₁).2 name =
      some { method := m₁, url := u₁, headers := hs₁, body := b₁,
             params := p₁, description := d₁, saved_at := t₁,
             id := name } ∧
    save_request_tool (save_request_tool st name m₁ u₁ hs₁ b₁ p₁ d₁ t₁).2
        name m₂ u₂ hs₂ b₂ p₂ d₂ t₂ =
      (false, (save_request_tool st name m₁ u₁ hs₁ b₁ p₁ d₁ t₁).2) := by
  have hset : get_request (save_request st name m₁ u₁ hs₁ b₁ p₁ d₁ t₁)
      name =
      some { method := m₁, url := u₁, headers := hs₁, body := b₁,
             params := p₁, description := d₁, saved_at := t₁,
             id := name } := by
    unfold get_request save_request
    exact dictGet_dictSet_self st.saved_requests name _
  simp only [save_request_tool, habs, hset]
  exact ⟨trivial, trivial, trivial⟩

/-- Witness for C9: save "x" twice on the empty store. -/
theorem save_request_no_overwrite_witness :
    (save_request_tool emptyStorage "x" "GET" "https://a.com" [] none []
        "" "t1").1 = true ∧
    get_request (save_request_tool emptyStorage "x" "GET" "https://a.com"
        [] none [] "" "t1").2 "x" =
      some { method := "GET", url := "https://a.com", headers := [],
             body := none, params := [], description := "",
             saved_at := "t1", id := "x" } ∧
    save_request_tool (save_request_tool emptyStorage "x" "GET"
        "https://a.com" [] none [] "" "t1").2 "x" "POST" "https://b.com"
        [] none [] "" "t2" =
      (false, (save_request_tool emptyStorage "x" "GET" "https://a.com"
        [] none [] "" "t1").2) :=
  save_request_no_overwrite emptyStorage "x" "GET" "https://a.com" []
    none [] "" "t1" "POST" "https://b.com" [] none [] "" "t2" rfl

/-! ### Claim C10 -/

/-- Claim C10: the history queries are total (they cannot raise: they are
pure list operations), return at most `limit` entries, return the whole
matching set when `limit` is at least its size (in particular on an empty
log), preserve the log's recency order (their result is a sublist of the
log), and do not mutate the log (they are read-only functions of the
state). -/
theorem history_queries_safe (st : Storage) (limit : Nat)
    (url m : String) :
    (get_history st limit).length ≤ limit ∧
    List.Sublist (get_history st limit) st.history ∧
    (st.history.length ≤ limit → get_history st limit = st.history) ∧
    (get_history_by_url st url limit).length ≤ limit ∧
    List.Sublist (get_history_by_url st url limit) st.history ∧
    ((st.history.filter
        (fun e => strLower e.request.url == strLower url)).length ≤ limit →
      get_history_by_url st url limit =
        st.history.filter
          (fun e => strLower e.request.url == strLower url)) ∧
    (get_history_by_method st m limit).length ≤ limit ∧
    List.Sublist (get_history_by_method st m limit) st.history ∧
    ((st.history.filter
        (fun e => strUpper e.request.method == strUpper m)).length ≤ limit →
      get_history_by_method st m limit =
        st.history.filter
          (fun e => strUpper e.request.method == strUpper m)) := by
  unfold get_history get_history_by_url get_history_by_method
  refine ⟨?_, List.take_sublist _ _, fun h => List.take_of_length_le h,
          ?_, (List.take_sublist _ _).trans (List.filter_sublist _),
          fun h => List.take_of_length_le h,
          ?_, (List.take_sublist _ _).trans (List.filter_sublist _),
          fun h => List.take_of_length_le h⟩
  all_goals rw [List.length_take]; omega

/-- Witness for C10 on the empty log with limit 3. -/
theorem history_queries_safe_witness :
    get_history emptyStorage 3 = emptyStorage.history ∧
    get_history_by_url emptyStorage "u" 3 =
      emptyStorage.history.filter
        (fun e => strLower e.request.url == strLower "u") ∧
    get_history_by_method emptyStorage "GET" 3 =
      emptyStorage.history.filter
        (fun e => strUpper e.request.method == strUpper "GET") :=
  ⟨(history_queries_safe emptyStorage 3 "u" "GET").2.2.1 (by decide),
   (history_queries_safe emptyStorage 3 "u" "GET").2.2.2.2.2.1 (by decide),
   (history_queries_safe emptyStorage 3 "u"
      "GET").2.2.2.2.2.2.2.2 (by decide)⟩

/-! ### Claim C3 -/

/-- Claim C3 (code bug): `get_stats` does NOT return normally on every
log.  Failure-variant entries store `status_code` with the Python value
`None` (the `error_response` of `send_request_tool` and
`_clean_response_data` always write the key), so the success-rate pass
evaluates `None < 400` and raises `TypeError`: whenever the log contains
an entry with `status_code = none`, `get_stats` raises instead of
counting the entry as not successful. -/
theorem get_stats_raises_on_failure_entry (st : Storage)
    (e : HistoryEntry) (he : e ∈ st.history)
    (hn : e.response.status_code = none) :
    ∃ msg, get_stats st = Except.error msg := by
  obtain ⟨msg, hmsg⟩ := countSuccessful_error st.history e he hn
  refine ⟨msg, ?_⟩
  unfold get_stats
  split
  · rename_i hemp
    rw [List.isEmpty_iff] at hemp
    rw [hemp] at he
    cases he
  · rw [hmsg]

/-- Witness for C3: the failure entry written by the transport-failure
path of `send_request_tool` makes `get_stats` raise. -/
theorem get_stats_raises_witness :
    ∃ msg,
      get_stats (send_request_tool {} emptyStorage req₀
        (NetResult.exn "boom") "t0" (fun _ => false)).2 =
      Except.error msg := by
  have hh : (send_request_tool {} emptyStorage req₀ (NetResult.exn "boom")
      "t0" (fun _ => false)).2.history = [failEntry₀] := by rfl
  exact get_stats_raises_on_failure_entry _ failEntry₀
    (by rw [hh]; exact List.mem_singleton.mpr rfl) rfl

/-! ### Claim C2 -/

/-- Claim C2 counterexample: a snapshot whose history contains one
malformed record makes `import_data` return false, but the Template
Store mapping is NOT as it was before the call: the template update has
already been applied when the history parse fails. -/
theorem import_atomicity_cex :
    (import_data 50 emptyStorage snap₀).1 = false ∧
    (import_data 50 emptyStorage snap₀).2.saved_requests ≠
      emptyStorage.saved_requests := by
  constructor
  · decide
  · decide

/-- Claim C2 (amended): on a structural parse failure in any snapshot
history record, `import_data` returns false and leaves the History Log
exactly as it was, but the Template Store merge has already been applied
(the template `update` runs before the history records are parsed and is
not rolled back). -/
theorem import_failure_partial (max : Nat) (st : Storage) (d : Snapshot)
    (hs : List HRecord) (hh : d.history = some hs)
    (hbad : hs.all HRecord.isOk = false) :
    (import_data max st d).1 = false ∧
    (import_data max st d).2.history = st.history ∧
    (import_data max st d).2.saved_requests =
      dictUpdateAll st.saved_requests (d.saved_requests.getD []) := by
  obtain ⟨dsr, dh⟩ := d
  simp only at hh
  subst hh
  cases dsr with
  | none => simp [import_data, hbad, dictUpdateAll]
  | some ts => simp [import_data, hbad]

/-- Witness for C2 (amended) at the concrete malformed snapshot. -/
theorem import_failure_partial_witness :
    (import_data 50 emptyStorage snap₀).1 = false ∧
    (import_data 50 emptyStorage snap₀).2.history =
      emptyStorage.history ∧
    (import_data 50 emptyStorage snap₀).2.saved_requests =
      dictUpdateAll emptyStorage.saved_requests
        (snap₀.saved_requests.getD []) :=
  import_failure_partial 50 emptyStorage snap₀ [HRecord.bad] rfl rfl

/-! ### Claim C5 -/

/-- Claim C5 counterexample: the claimed policy is not all of
`validate_url`.  For `http://[a` (scheme `http`, raw host `[a`) with
allow-list `["a"]`, the claim's policy accepts (the host contains the
entry `a` as a substring), but the code rejects: CPython's `urlsplit`
raises `ValueError("Invalid IPv6 URL")` on the unmatched bracket and the
`except` branch of `validate_url` returns `False`. -/
theorem validate_url_ipv6_cex :
    validate_url ["a"] [] "http://[a" = false ∧
    specIsAllowed ["a"] [] "http://[a" = true ∧
    urlparseE "http://[a" = Except.error "ValueError: Invalid IPv6 URL" :=
  ⟨rfl, rfl, rfl⟩

/-- Claim C5 (amended): `validate_url` equals the claimed domain policy
extended with the parse-failure rejection: a URL whose netloc contains
an unmatched bracket makes `urlparse` raise and is rejected by the
`except` branch; every URL that parses is judged exactly as the claim
states (malformed URLs rejected; both lists empty allows everything;
otherwise block-list hit — entries trimmed, empty ignored,
case-insensitive substring of the host — rejects with precedence;
otherwise a non-empty allow-list accepts exactly on a match; otherwise
accepted). -/
theorem validate_url_matches_amended_policy (al bl : List String)
    (url : String) :
    validate_url al bl url = specIsAllowedAmended al bl url := by
  unfold validate_url specIsAllowedAmended specIsAllowed is_url_allowed
  cases hp : urlparseE url with
  | error e => rfl
  | ok p =>
      have hpe := urlparseE_ok url p hp
      subst hpe
      by_cases hm : (urlScheme url == "" || urlNetlocRaw url == "") = true
      · simp [hm]
      · by_cases he : (al.isEmpty && bl.isEmpty) = true
        · simp [hm, he]
        · cases bl with
          | nil =>
              by_cases hal : al.isEmpty = true
              · exfalso
                apply he
                simp [hal]
              · simp [hm, he, hal]
          | cons x xs =>
              by_cases hb : ((x :: xs).any
                  (fun b => !(pyStrip b == "") &&
                    strContains (strLower (urlNetlocRaw url))
                      (strLower (pyStrip b)))) = true
              · simp [hm, he, hb]
              · by_cases hal : al.isEmpty = true
                · simp [hm, he, hb, hal]
                · simp [hm, he, hb, hal]

/-! ### Claim C7 -/

/-- Claim C7 counterexample: the header merge is the case-sensitive
`dict.update`, not a case-insensitive merge: with caller key
"user-agent" the prepared headers still contain the default
"User-Agent" entry with the default's value — the caller's value has not
replaced it. -/
theorem prepare_headers_case_cex :
    dictGet (prepare_headers [("user-agent", "custom")]) "User-Agent" =
      some "api-tester/1.0.0" ∧
    dictGet (prepare_headers [("user-agent", "custom")]) "user-agent" =
      some "custom" ∧
    prepare_headers [("user-agent", "custom")] =
      [("User-Agent", "api-tester/1.0.0"),
       ("Accept", "application/json, text/plain, */*"),
       ("user-agent", "custom")] :=
  ⟨rfl, rfl, rfl⟩

/-- Claim C7 (amended): caller headers win over the defaults only on an
exact (case-sensitive) key collision; a caller key that differs from
every default key (even one equal to a default key up to case) is
appended as its own entry and the default keys keep their default
values. -/
theorem prepare_headers_exact_merge (hs : List (String × String))
    (k v : String) (hnd : (hs.map Prod.fst).Nodup) :
    ((k, v) ∈ hs → dictGet (prepare_headers hs) k = some v) ∧
    (k ∉ hs.map Prod.fst →
      dictGet (prepare_headers hs) k = dictGet DEFAULT_HEADERS k) := by
  cases hs with
  | nil =>
      refine ⟨fun hmem => absurd hmem (List.not_mem_nil _), fun _ => rfl⟩
  | cons p rest =>
      constructor
      · intro hmem
        show dictGet (dictUpdateAll DEFAULT_HEADERS (p :: rest)) k = some v
        exact dictGet_dictUpdateAll_mem _ _ _ _ hnd hmem
      · intro hnm
        show dictGet (dictUpdateAll DEFAULT_HEADERS (p :: rest)) k =
          dictGet DEFAULT_HEADERS k
        exact dictGet_dictUpdateAll_not_mem _ _ _ hnm

/-- Witness for C7 (amended): an exact collision wins; a fresh key falls
through to the default. -/
theorem prepare_headers_exact_merge_witness :
    dictGet (prepare_headers [("User-Agent", "custom")]) "User-Agent" =
      some "custom" ∧
    dictGet (prepare_headers [("X-Test", "1")]) "User-Agent" =
      dictGet DEFAULT_HEADERS "User-Agent" :=
  ⟨(prepare_headers_exact_merge [("User-Agent", "custom")] "User-Agent"
      "custom" (by simp)).1 (List.mem_singleton.mpr rfl),
   (prepare_headers_exact_merge [("X-Test", "1")] "User-Agent" "1"
      (by simp)).2 (by simp)⟩

/-! ### Claim C8 -/

/-- Claim C8: import merge semantics for a well-formed snapshot:
the call reports success; snapshot templates overwrite same-named
existing templates while names absent from the snapshot keep their old
binding; history records whose id already exists in the current log are
skipped and the surviving new entries are combined with the current log,
stably sorted by timestamp descending and truncated to `MAX_HISTORY`;
hence a snapshot containing only duplicate-id entries cannot increase
the log length. -/
theorem import_merge_semantics (max : Nat) (st : Storage)
    (ts : List (String × SavedReq)) (hs : List HRecord)
    (hok : hs.all HRecord.isOk = true)
    (hnd : (ts.map Prod.fst).Nodup) :
    (import_data max st
      { saved_requests := some ts, history := some hs }).1 = true ∧
    (∀ n v, (n, v) ∈ ts →
      dictGet (import_data max st
        { saved_requests := some ts,
          history := some hs }).2.saved_requests n = some v) ∧
    (∀ n, n ∉ ts.map Prod.fst →
      dictGet (import_data max st
        { saved_requests := some ts,
          history := some hs }).2.saved_requests n =
        dictGet st.saved_requests n) ∧
    (import_data max st
      { saved_requests := some ts, history := some hs }).2.history =
      (sortByDesc tsGt (st.history ++
        (hs.filterMap HRecord.getOk).filter
          (fun e =>
            !((st.history.map HistoryEntry.id).contains e.id)))).take
        max ∧
    ((hs.filterMap HRecord.getOk).all
        (fun e => (st.history.map HistoryEntry.id).contains e.id) =
          true →
      (import_data max st
        { saved_requests := some ts,
          history := some hs }).2.history.length ≤
        st.history.length) := by
  have hred : import_data max st
      { saved_requests := some ts, history := some hs } =
      (true,
       { saved_requests := dictUpdateAll st.saved_requests ts,
         history := (sortByDesc tsGt (st.history ++
           (hs.filterMap HRecord.getOk).filter
             (fun e =>
               !((st.history.map HistoryEntry.id).contains e.id)))).take
           max }) := by
    simp [import_data, hok]
  simp only [hred]
  refine ⟨trivial, ?_, ?_, trivial, ?_⟩
  · intro n v hmem
    exact dictGet_dictUpdateAll_mem _ _ _ _ hnd hmem
  · intro n hnm
    exact dictGet_dictUpdateAll_not_mem _ _ _ hnm
  · intro hall
    have hnil : (hs.filterMap HRecord.getOk).filter
        (fun e => !((st.history.map HistoryEntry.id).contains e.id)) =
        [] := by
      rw [List.filter_eq_nil_iff]
      intro e he
      have hce := List.all_eq_true.mp hall e he
      simp only [hce, Bool.not_true]
      exact fun hc => Bool.noConfusion hc
    rw [hnil, List.append_nil, List.length_take, sortByDesc_length]
    omega

/-- Witness for C8: a fresh template plus a fresh history entry merge
into the empty store; a duplicate-id-only snapshot does not grow the
log. -/
theorem import_merge_semantics_witness :
    (import_data 50 emptyStorage snapOk₀).1 = true ∧
    dictGet (import_data 50 emptyStorage snapOk₀).2.saved_requests "a" =
      some tmpl₀ ∧
    dictGet (import_data 50 emptyStorage snapOk₀).2.saved_requests "b" =
      dictGet emptyStorage.saved_requests "b" ∧
    (import_data 50 stOne snapDup₀).2.history.length ≤
      stOne.history.length := by
  have h₁ := import_merge_semantics 50 emptyStorage [("a", tmpl₀)]
    [HRecord.ok hEntry₀] (by rfl) (by simp)
  have h₂ := import_merge_semantics 50 stOne [] [HRecord.ok hEntry₀]
    (by rfl) (by simp)
  exact ⟨h₁.1, h₁.2.1 "a" tmpl₀ (List.mem_singleton.mpr rfl),
    h₁.2.2.1 "b" (by simp), h₂.2.2.2.2 (by rfl)⟩

/-! ### Claim C6 -/

/-- Claim C6: a dispatch appends exactly one history entry precisely
when the attempt reaches the network and is not abandoned for size:
on URL validation or domain-policy rejection the call returns
immediately with the storage unchanged (no network call is modelled in
that branch); on a declared content length above `MAX_RESPONSE_SIZE` the
transfer is abandoned and the storage is unchanged; on a completed
transfer exactly one success-variant entry is appended; on a transport
failure exactly one failure-variant entry carrying the error description
is appended, associated with the originally intended request (its URL
and upper-cased method). -/
theorem send_request_history_behavior (cfg : Config) (st : Storage)
    (args : ReqData) (net : NetResult) (now : String)
    (jsonOk : String → Bool) :
    (validate_url cfg.ALLOWED_DOMAINS cfg.BLOCKED_DOMAINS args.url =
        false →
      send_request_tool cfg st args net now jsonOk =
        (SendOutcome.invalidUrl, st)) ∧
    (validate_url cfg.ALLOWED_DOMAINS cfg.BLOCKED_DOMAINS args.url =
        true →
      ∀ r n, net = NetResult.ok r → r.contentLength = some n →
        cfg.MAX_RESPONSE_SIZE < n →
        send_request_tool cfg st args net now jsonOk =
          (SendOutcome.tooLarge n, st)) ∧
    (validate_url cfg.ALLOWED_DOMAINS cfg.BLOCKED_DOMAINS args.url =
        true →
      ∀ r, net = NetResult.ok r →
        (∀ n, r.contentLength = some n → n ≤ cfg.MAX_RESPONSE_SIZE) →
        ∃ e, (send_request_tool cfg st args net now jsonOk).1 =
              SendOutcome.completed ∧
          (send_request_tool cfg st args net now jsonOk).2.history =
            (e :: st.history).take cfg.MAX_HISTORY ∧
          e.response.error = none ∧
          e.response.status_code = some r.status_code ∧
          e.request.url = args.url ∧
          e.request.method = strUpper args.method ∧
          e.timestamp = now) ∧
    (validate_url cfg.ALLOWED_DOMAINS cfg.BLOCKED_DOMAINS args.url =
        true →
      ∀ msg, net = NetResult.exn msg →
        ∃ e, (send_request_tool cfg st args net now jsonOk).1 =
              SendOutcome.failed msg ∧
          (send_request_tool cfg st args net now jsonOk).2.history =
            (e :: st.history).take cfg.MAX_HISTORY ∧
          e.response.error = some msg ∧
          e.response.status_code = none ∧
          e.request.url = args.url ∧
          e.request.method = strUpper args.method ∧
          e.timestamp = now) := by
  refine ⟨fun hv => ?_, fun hv r n hnet hcl hgt => ?_,
    fun hv r hnet hbound => ?_, fun hv msg hnet => ?_⟩
  · unfold send_request_tool
    rw [hv]
    rfl
  · subst hnet
    simp [send_request_tool, hv, hcl, hgt]
  · subst hnet
    cases hcl : r.contentLength with
    | none =>
        refine ⟨newHistoryEntry st (dispatchRequestData args jsonOk)
          ({ format_response r with time_ms := some r.elapsedMs }) now,
          ?_, ?_, rfl, rfl, rfl, rfl, rfl⟩
        · simp [send_request_tool, hv, hcl]
        · simp [send_request_tool, hv, hcl, add_to_history_history]
    | some n =>
        have hng : ¬ cfg.MAX_RESPONSE_SIZE < n := by
          have hb := hbound n hcl
          omega
        refine ⟨newHistoryEntry st (dispatchRequestData args jsonOk)
          ({ format_response r with time_ms := some r.elapsedMs }) now,
          ?_, ?_, rfl, rfl, rfl, rfl, rfl⟩
        · simp [send_request_tool, hv, hcl, hng]
        · simp [send_request_tool, hv, hcl, hng, add_to_history_history]
  · subst hnet
    refine ⟨newHistoryEntry st (dispatchRequestData args jsonOk)
      { error := some msg } now, ?_, ?_, rfl, rfl, rfl, rfl, rfl⟩
    · simp [send_request_tool, hv]
    · simp [send_request_tool, hv, add_to_history_history]

/-- Witness for C6: a policy-rejected dispatch leaves the storage
unchanged, and a transport failure appends exactly one failure entry. -/
theorem send_request_history_behavior_witness :
    send_request_tool cfgB emptyStorage reqEvil (NetResult.exn "x") "t"
      (fun _ => false) = (SendOutcome.invalidUrl, emptyStorage) ∧
    ∃ e, (send_request_tool cfg₀ emptyStorage req₀ (NetResult.exn "boom")
          "t0" (fun _ => false)).1 = SendOutcome.failed "boom" ∧
      (send_request_tool cfg₀ emptyStorage req₀ (NetResult.exn "boom")
          "t0" (fun _ => false)).2.history =
        (e :: emptyStorage.history).take cfg₀.MAX_HISTORY ∧
      e.response.error = some "boom" ∧
      e.response.status_code = none ∧
      e.request.url = req₀.url ∧
      e.request.method = strUpper req₀.method ∧
      e.timestamp = "t0" :=
  ⟨(send_request_history_behavior cfgB emptyStorage reqEvil
      (NetResult.exn "x") "t" (fun _ => false)).1 (by rfl),
   (send_request_history_behavior cfg₀ emptyStorage req₀
      (NetResult.exn "boom") "t0" (fun _ => false)).2.2.2 (by rfl)
     "boom" rfl⟩

end ApiTester
